import Mathlib

/-!
# Permission groups client (`permission_group.go`)

A shallow embedding of the four retrieval operations of `permission_group.go`
and the properties of its specification.

Conventions of the embedding

* Go `string` and `[]byte` values are Lean `String`s (text; byte sequences that
  are not valid UTF-8 are outside the model).
* Go `error` is a type parameter `ε`; a `nil` error is `none`.
* A Go slice is a `List` (a `nil` slice and an empty slice are both `[]`);
  a Go `map[string]string` is a `StringMap`, where `none` is the `nil` map.
* The two collaborators of the file, `api.makeRequestContext` and
  `json.Unmarshal`, live outside it.  Their behaviour is a parameter
  (`API.roundTrip`, `JsonPackage`), and every call of them is recorded in an
  explicit `World`, so that "one request", "no retry" and "never decoded" are
  statements about the embedding.
-/

namespace Cloudflare

/-! ## Data model (lines 10-35 of `permission_group.go`) -/

/-- A Go `map[string]string`: `none` is the `nil` map, `some kvs` holds the
entries. -/
abbrev StringMap := Option (List (String × String))

/-- The struct `Permission`. -/
structure Permission where
  ID : String
  Key : String
  Attributes : StringMap
  deriving DecidableEq

/-- The struct `PermissionGroup`. -/
structure PermissionGroup where
  ID : String
  Name : String
  Meta : StringMap
  Permissions : List Permission
  deriving DecidableEq

/-- The struct `PermissionGroupListResponse`. -/
structure PermissionGroupListResponse where
  Success : Bool
  Errors : List String
  Messages : List String
  Result : List PermissionGroup
  deriving DecidableEq

/-- The struct `PermissionGroupDetailResponse`. -/
structure PermissionGroupDetailResponse where
  Success : Bool
  Errors : List String
  Messages : List String
  Result : PermissionGroup
  deriving DecidableEq

/-- The Go zero value `Permission{}`. -/
def Permission.zero : Permission := ⟨"", "", none⟩

/-- The Go zero value `PermissionGroup{}`. -/
def PermissionGroup.zero : PermissionGroup := ⟨"", "", none, []⟩

/-- The Go zero value of a declared `var r PermissionGroupListResponse`. -/
def PermissionGroupListResponse.zero : PermissionGroupListResponse :=
  ⟨false, [], [], []⟩

/-- The Go zero value of a declared `var r PermissionGroupDetailResponse`. -/
def PermissionGroupDetailResponse.zero : PermissionGroupDetailResponse :=
  ⟨false, [], [], PermissionGroup.zero⟩

/-- Modelled from the spec: the struct `AccountRole` is declared in another file
of the package.  The operations read its `Name` only; every other field is kept
in `rest`, of an arbitrary type. -/
structure AccountRole (ρ : Type) where
  Name : String
  rest : ρ

/-! ## `fmt.Sprintf` and `http.MethodGet` -/

namespace http

/-- The constant `http.MethodGet` of `net/http`. -/
def MethodGet : String := "GET"

end http

namespace fmt

/-- The tail `%!(EXTRA string=a, string=b)` that `fmt.Sprintf` writes for operands
no verb consumed. -/
def extra : List String → List Char
  | [] => []
  | a :: args =>
      "%!(EXTRA string=".data ++ a.data ++
        (args.map fun b => ", string=".data ++ b.data).flatten ++ [')']

/-- The formatting loop of `fmt.Sprintf`, for what these call sites use: `%s`
writes the next operand verbatim (`%!s(MISSING)` when the operands are used up),
`%%` writes a percent sign, every other character is copied, and operands left
over at the end are reported by `extra`.  Other verbs, flags and widths do not
occur in the file and are outside the modelled fragment: such a percent sign is
copied like any other character. -/
def sprintfAux : List Char → List String → List Char
  | [], args => extra args
  | '%' :: 's' :: rest, a :: args => a.data ++ sprintfAux rest args
  | '%' :: 's' :: rest, [] => "%!s(MISSING)".data ++ sprintfAux rest []
  | '%' :: '%' :: rest, args => '%' :: sprintfAux rest args
  | c :: rest, args => c :: sprintfAux rest args

/-- The call `fmt.Sprintf(format, args...)` with string operands. -/
def Sprintf (format : String) (args : List String) : String :=
  ⟨sprintfAux format.data args⟩

end fmt

/-! ## The collaborators and the world they act on -/

/-- One call of `api.makeRequestContext(ctx, method, uri, params)` as the
transport sees it.  `params` is the request body, `none` for the Go `nil`. -/
structure Request (κ : Type) where
  ctx : κ
  method : String
  uri : String
  params : Option String

/-- The receiver `*API`, of which this file uses the request-execution method
only.  `roundTrip` is the behaviour of that collaborator: from a request and the
collaborator's own state `σ` (connection, rate limiter, remote service) it
yields the Go pair `(res, err)` and the next state. -/
structure API (κ ε σ : Type) where
  roundTrip : Request κ → σ → (String × Option ε) × σ

/-- The function `json.Unmarshal(data, &v)` at the two target types of the file.
It receives the payload and the current value of `v`, and yields the value `v`
holds afterwards (which Go may have partly filled in even when it fails)
together with the returned error. -/
structure JsonPackage (ε : Type) where
  UnmarshalDetail : String → PermissionGroupDetailResponse →
    PermissionGroupDetailResponse × Option ε
  UnmarshalList : String → PermissionGroupListResponse →
    PermissionGroupListResponse × Option ε

/-- What a call can change or be observed through: the state of the transport
collaborator, the log of the requests handed to it (oldest first), and the log
of the payloads handed to `json.Unmarshal`. -/
structure World (κ σ : Type) where
  net : σ
  requests : List (Request κ)
  unmarshalled : List String

/-- The call `api.makeRequestContext(ctx, method, uri, params)`.  The method is
defined in another file of the package; what it answers is the parameter
`roundTrip`.  One call is one entry of the request log and one step of the
collaborator. -/
def API.makeRequestContext {κ ε σ : Type} (api : API κ ε σ) (ctx : κ) (method uri : String)
    (params : Option String) (w : World κ σ) : (String × Option ε) × World κ σ :=
  let req : Request κ := ⟨ctx, method, uri, params⟩
  let out := api.roundTrip req w.net
  (out.1, { w with net := out.2, requests := w.requests ++ [req] })

/-- The call `json.Unmarshal(data, &v)` with `v` a `PermissionGroupDetailResponse`,
recorded in the world. -/
def JsonPackage.unmarshalDetail {κ ε σ : Type} (json : JsonPackage ε) (data : String)
    (v : PermissionGroupDetailResponse) (w : World κ σ) :
    (PermissionGroupDetailResponse × Option ε) × World κ σ :=
  (json.UnmarshalDetail data v, { w with unmarshalled := w.unmarshalled ++ [data] })

/-- The call `json.Unmarshal(data, &v)` with `v` a `PermissionGroupListResponse`,
recorded in the world. -/
def JsonPackage.unmarshalList {κ ε σ : Type} (json : JsonPackage ε) (data : String)
    (v : PermissionGroupListResponse) (w : World κ σ) :
    (PermissionGroupListResponse × Option ε) × World κ σ :=
  (json.UnmarshalList data v, { w with unmarshalled := w.unmarshalled ++ [data] })

/-! ## The four operations (lines 37-91 of `permission_group.go`) -/

/-- The method `API.PermissionGroup`. -/
def API.PermissionGroup {κ ε σ : Type} (api : API κ ε σ) (json : JsonPackage ε) (ctx : κ)
    (accountId permissionGroupId : String) (w : World κ σ) :
    (Cloudflare.PermissionGroup × Option ε) × World κ σ :=
  let uri := fmt.Sprintf "/accounts/%s/iam/permission_groups/%s?depth=2"
    [accountId, permissionGroupId]
  match api.makeRequestContext ctx http.MethodGet uri none w with
  | ((_, some err), w1) => ((Cloudflare.PermissionGroup.zero, some err), w1)
  | ((res, none), w1) =>
    match json.unmarshalDetail res PermissionGroupDetailResponse.zero w1 with
    | ((_, some err), w2) => ((Cloudflare.PermissionGroup.zero, some err), w2)
    | ((permissionGroupResponse, none), w2) => ((permissionGroupResponse.Result, none), w2)

/-- The method `API.PermissionGroups`. -/
def API.PermissionGroups {κ ε σ : Type} (api : API κ ε σ) (json : JsonPackage ε) (ctx : κ)
    (accountId : String) (w : World κ σ) :
    (List Cloudflare.PermissionGroup × Option ε) × World κ σ :=
  let uri := fmt.Sprintf "/accounts/%s/iam/permission_groups?depth=2" [accountId]
  match api.makeRequestContext ctx http.MethodGet uri none w with
  | ((_, some err), w1) => (([], some err), w1)
  | ((res, none), w1) =>
    match json.unmarshalList res PermissionGroupListResponse.zero w1 with
    | ((_, some err), w2) => (([], some err), w2)
    | ((permissionGroupResponse, none), w2) => ((permissionGroupResponse.Result, none), w2)

/-- The method `API.FindPermissionGroupByName`. -/
def API.FindPermissionGroupByName {κ ε σ : Type} (api : API κ ε σ) (json : JsonPackage ε)
    (ctx : κ) (accountId name : String) (w : World κ σ) :
    (List Cloudflare.PermissionGroup × Option ε) × World κ σ :=
  let uri := fmt.Sprintf "/accounts/%s/iam/permission_groups?name=%s&depth=2" [accountId, name]
  match api.makeRequestContext ctx http.MethodGet uri none w with
  | ((_, some err), w1) => (([], some err), w1)
  | ((res, none), w1) =>
    match json.unmarshalList res PermissionGroupListResponse.zero w1 with
    | ((_, some err), w2) => (([], some err), w2)
    | ((permissionGroupResponse, none), w2) => ((permissionGroupResponse.Result, none), w2)

/-- The method `API.FindPermissionGroupForRole`. -/
def API.FindPermissionGroupForRole {κ ε σ ρ : Type} (api : API κ ε σ) (json : JsonPackage ε)
    (ctx : κ) (accountId : String) (role : AccountRole ρ) (w : World κ σ) :
    (List Cloudflare.PermissionGroup × Option ε) × World κ σ :=
  api.FindPermissionGroupByName json ctx accountId role.Name w

/-! ## A model of `encoding/json` for the two response types

The standard library is not part of the file; the general theorems below hold
for every `JsonPackage`.  This model follows the documented behaviour of
`json.Unmarshal` on the target types of the file and is what the examples on
concrete payloads are evaluated with. -/

namespace encoding_json

/-- A JSON value as written in the text: object members keep their order and
their duplicates, a number keeps its literal. -/
inductive Value where
  | null
  | bool (b : Bool)
  | number (raw : String)
  | string (s : String)
  | array (elems : List Value)
  | object (members : List (String × Value))

/-- The lexical tokens of JSON. -/
inductive Token where
  | lbrace | rbrace | lbracket | rbracket | colon | comma
  | str (s : String)
  | num (raw : String)
  | litTrue | litFalse | litNull

/-- JSON insignificant whitespace. -/
def isSpace (c : Char) : Bool := c = ' ' || c = '\t' || c = '\r' || c = '\n'

/-- Value of a hexadecimal digit. -/
def hexVal (c : Char) : Option Nat :=
  if '0' ≤ c ∧ c ≤ '9' then some (c.toNat - '0'.toNat)
  else if 'a' ≤ c ∧ c ≤ 'f' then some (c.toNat - 'a'.toNat + 10)
  else if 'A' ≤ c ∧ c ≤ 'F' then some (c.toNat - 'A'.toNat + 10)
  else none

/-- Value of the four hexadecimal digits of a `\u` escape. -/
def hex4 (a b c d : Char) : Option Nat :=
  match hexVal a, hexVal b, hexVal c, hexVal d with
  | some x, some y, some z, some w => some (((x * 16 + y) * 16 + z) * 16 + w)
  | _, _, _, _ => none

/-- The character a one-letter escape stands for. -/
def unescape : Char → Option Char
  | '"' => some '"'
  | '\\' => some '\\'
  | '/' => some '/'
  | 'b' => some (Char.ofNat 8)
  | 'f' => some (Char.ofNat 12)
  | 'n' => some '\n'
  | 'r' => some '\r'
  | 't' => some '\t'
  | _ => none

/-- The low half of a surrogate pair, when the text goes on with one. -/
def lowSurrogate : List Char → Option Nat
  | '\\' :: 'u' :: a :: b :: c :: d :: _ =>
    match hex4 a b c d with
    | some n => if 0xDC00 ≤ n ∧ n < 0xE000 then some n else none
    | none => none
  | _ => none

/-- Reads a string literal after its opening quote: the characters it denotes and
the number of characters read, closing quote included. -/
def lexString : Nat → List Char → Option (List Char × Nat)
  | _, [] => none
  | skip + 1, _ :: rest => (lexString skip rest).map fun r => (r.1, r.2 + 1)
  | 0, '"' :: _ => some ([], 1)
  | 0, '\\' :: rest =>
    match rest with
    | 'u' :: a :: b :: c :: d :: rest2 =>
      match hex4 a b c d with
      | none => none
      | some n =>
        if 0xD800 ≤ n ∧ n < 0xE000 then
          match (if n < 0xDC00 then lowSurrogate rest2 else none) with
          | some m =>
            (lexString 11 rest).map fun r =>
              (Char.ofNat (0x10000 + (n - 0xD800) * 0x400 + (m - 0xDC00)) :: r.1, r.2 + 1)
          | none => (lexString 5 rest).map fun r => (Char.ofNat 0xFFFD :: r.1, r.2 + 1)
        else (lexString 5 rest).map fun r => (Char.ofNat n :: r.1, r.2 + 1)
    | e :: _ =>
      match unescape e with
      | some ch => (lexString 1 rest).map fun r => (ch :: r.1, r.2 + 1)
      | none => none
    | [] => none
  | 0, c :: rest =>
    if c.toNat < 0x20 then none
    else (lexString 0 rest).map fun r => (c :: r.1, r.2 + 1)


/-- Number of decimal digits a text starts with. -/
def digits : List Char → Nat
  | c :: rest => if '0' ≤ c ∧ c ≤ '9' then digits rest + 1 else 0
  | [] => 0

/-- Length of the exponent part a text starts with: none when an `e` is not
followed by a digit (after an optional sign), zero when there is no exponent. -/
def lexExponent : List Char → Option Nat
  | c :: rest =>
    if c = 'e' ∨ c = 'E' then
      match rest with
      | s :: rest2 =>
        if s = '+' ∨ s = '-' then
          (if digits rest2 = 0 then none else some (digits rest2 + 2))
        else if digits rest = 0 then none else some (digits rest + 1)
      | [] => none
    else some 0
  | [] => some 0

/-- Length of the fraction part a text starts with: none when a point is not
followed by a digit, zero when there is no fraction. -/
def lexFraction : List Char → Option Nat
  | '.' :: rest => if digits rest = 0 then none else some (digits rest + 1)
  | _ => some 0

/-- Length of the integer part a text starts with: an optional minus sign, then
a single zero or a digit from 1 to 9 followed by digits. -/
def lexInteger : List Char → Option Nat
  | '-' :: '0' :: _ => some 2
  | '-' :: rest => if digits rest = 0 then none else some (digits rest + 1)
  | '0' :: _ => some 1
  | cs => if digits cs = 0 then none else some (digits cs)

/-- Length of the number literal a text starts with. -/
def lexNumber (cs : List Char) : Option Nat :=
  match lexInteger cs with
  | none => none
  | some i =>
    match lexFraction (cs.drop i) with
    | none => none
    | some f =>
      match lexExponent (cs.drop (i + f)) with
      | none => none
      | some e => some (i + f + e)

/-- Splits a text into tokens; `skip` counts the characters that belong to the
token just read.  The result is none when some character starts no token. -/
def lex : Nat → List Char → Option (List Token)
  | _, [] => some []
  | skip + 1, _ :: rest => lex skip rest
  | 0, c :: rest =>
    if isSpace c then lex 0 rest
    else if c = '{' then (lex 0 rest).map (Token.lbrace :: ·)
    else if c = '}' then (lex 0 rest).map (Token.rbrace :: ·)
    else if c = '[' then (lex 0 rest).map (Token.lbracket :: ·)
    else if c = ']' then (lex 0 rest).map (Token.rbracket :: ·)
    else if c = ':' then (lex 0 rest).map (Token.colon :: ·)
    else if c = ',' then (lex 0 rest).map (Token.comma :: ·)
    else if c = '"' then
      match lexString 0 rest with
      | some (s, n) => (lex n rest).map (Token.str ⟨s⟩ :: ·)
      | none => none
    else if c = 't' then
      (if rest.take 3 = ['r', 'u', 'e'] then (lex 3 rest).map (Token.litTrue :: ·) else none)
    else if c = 'f' then
      (if rest.take 4 = ['a', 'l', 's', 'e'] then (lex 4 rest).map (Token.litFalse :: ·)
       else none)
    else if c = 'n' then
      (if rest.take 3 = ['u', 'l', 'l'] then (lex 3 rest).map (Token.litNull :: ·) else none)
    else
      match lexNumber (c :: rest) with
      | some n => (lex (n - 1) rest).map (Token.num ⟨(c :: rest).take n⟩ :: ·)
      | none => none

/-- The limit `maxNestingDepth` of the scanner of `encoding/json`. -/
def maxNestingDepth : Nat := 10000

/-- An array or object still open while its text is read, with what it holds so
far (newest first) and, for an object, the key whose value is awaited. -/
inductive Frame where
  | arr (elems : List Value)
  | obj (members : List (String × Value)) (key : Option String)

/-- What the grammar allows next. -/
inductive Expect where
  | value
  | valueOrEnd
  | keyOrEnd
  | key
  | colon
  | commaOrEnd
  | done
  deriving DecidableEq

/-- Parser state: the open containers (innermost first), what may come next, and
the finished top-level value. -/
structure PState where
  stack : List Frame
  expect : Expect
  result : Option Value

/-- Hands a finished value to the innermost open container, or makes it the
top-level value. -/
def deliver (st : PState) (v : Value) : Option PState :=
  match st.stack with
  | [] => some ⟨[], .done, some v⟩
  | .arr elems :: up => some ⟨.arr (v :: elems) :: up, .commaOrEnd, none⟩
  | .obj members (some k) :: up => some ⟨.obj ((k, v) :: members) none :: up, .commaOrEnd, none⟩
  | .obj _ none :: _ => none

/-- Opens a container, unless the nesting limit is reached. -/
def push (st : PState) (f : Frame) (e : Expect) : Option PState :=
  if st.stack.length < maxNestingDepth then some ⟨f :: st.stack, e, none⟩ else none

/-- Closes the innermost container, which must be of the kind the bracket
says. -/
def close (st : PState) (isArray : Bool) : Option PState :=
  match st.stack, isArray with
  | .arr elems :: up, true => deliver ⟨up, .commaOrEnd, none⟩ (.array elems.reverse)
  | .obj members none :: up, false => deliver ⟨up, .commaOrEnd, none⟩ (.object members.reverse)
  | _, _ => none

/-- One token of input. -/
def step (st : PState) (t : Token) : Option PState :=
  match st.expect, t with
  | .value, .str s | .valueOrEnd, .str s => deliver st (.string s)
  | .value, .num r | .valueOrEnd, .num r => deliver st (.number r)
  | .value, .litTrue | .valueOrEnd, .litTrue => deliver st (.bool true)
  | .value, .litFalse | .valueOrEnd, .litFalse => deliver st (.bool false)
  | .value, .litNull | .valueOrEnd, .litNull => deliver st .null
  | .value, .lbracket | .valueOrEnd, .lbracket => push st (.arr []) .valueOrEnd
  | .value, .lbrace | .valueOrEnd, .lbrace => push st (.obj [] none) .keyOrEnd
  | .valueOrEnd, .rbracket => close st true
  | .keyOrEnd, .rbrace => close st false
  | .keyOrEnd, .str k | .key, .str k =>
    match st.stack with
    | .obj members none :: up => some ⟨.obj members (some k) :: up, .colon, none⟩
    | _ => none
  | .colon, .colon => some { st with expect := .value }
  | .commaOrEnd, .comma =>
    match st.stack with
    | .arr _ :: _ => some { st with expect := .value }
    | .obj _ _ :: _ => some { st with expect := .key }
    | [] => none
  | .commaOrEnd, .rbracket => close st true
  | .commaOrEnd, .rbrace => close st false
  | _, _ => none

/-- Runs the parser over the tokens. -/
def run : PState → List Token → Option PState
  | st, [] => some st
  | st, t :: ts =>
    match step st t with
    | some st2 => run st2 ts
    | none => none

/-- The JSON value a text denotes; none when the text is not exactly one valid
JSON value (what `checkValid` reports as a `SyntaxError`). -/
def parse (data : String) : Option Value :=
  match lex 0 data.data with
  | none => none
  | some ts =>
    match run ⟨[], .value, none⟩ ts with
    | some ⟨[], .done, some v⟩ => some v
    | _ => none

/-! ### Storing a JSON value in a Go value

`Unmarshal` keeps the first type mismatch it meets as its error and goes on
decoding, so a failed call may leave the target partly filled. -/

/-- The errors of `json.Unmarshal`: a `*SyntaxError`, or an `*UnmarshalTypeError`
with its fields `Value` and `Type` (offsets and field paths are left out). -/
inductive Error where
  | syntaxError
  | unmarshalTypeError (value : String) (type : String)
  deriving DecidableEq

/-- The `Value` field of an `UnmarshalTypeError` for a JSON value of the wrong
kind. -/
def describe : Value → String
  | .null => "null"
  | .bool _ => "bool"
  | .number _ => "number"
  | .string _ => "string"
  | .array _ => "array"
  | .object _ => "object"

/-- The error kept of two: the earlier one (`saveError`). -/
def first (e₁ e₂ : Option Error) : Option Error :=
  match e₁ with
  | some e => some e
  | none => e₂

/-- Decoding into a Go `string`. -/
def decodeString (v : Value) (cur : String) : String × Option Error :=
  match v with
  | .null => (cur, none)
  | .string s => (s, none)
  | other => (cur, some (.unmarshalTypeError (describe other) "string"))

/-- Decoding into a Go `bool`. -/
def decodeBool (v : Value) (cur : Bool) : Bool × Option Error :=
  match v with
  | .null => (cur, none)
  | .bool b => (b, none)
  | other => (cur, some (.unmarshalTypeError (describe other) "bool"))

/-- The elements of a JSON array decoded in order, the i-th one into the i-th
element the slice held before, or into a zero value when it held fewer.  (Go
also reuses what an earlier, longer array left in the backing store beyond the
length of the slice; that takes a member name written three times in one object
and is not modelled.) -/
def decodeElems {α : Type} (zero : α) (decodeElem : Value → α → α × Option Error) :
    List Value → List α → List α × Option Error
  | [], _ => ([], none)
  | v :: vs, cur =>
    let x := decodeElem v (cur.headD zero)
    let xs := decodeElems zero decodeElem vs cur.tail
    (x.1 :: xs.1, first x.2 xs.2)

/-- Decoding into a Go slice: `null` makes it `nil`, an array replaces its
elements. -/
def decodeSlice {α : Type} (zero : α) (decodeElem : Value → α → α × Option Error)
    (goType : String) (v : Value) (cur : List α) : List α × Option Error :=
  match v with
  | .null => ([], none)
  | .array elems => decodeElems zero decodeElem elems cur
  | other => (cur, some (.unmarshalTypeError (describe other) goType))

/-- The assignment `m[k] = v` on the entries of a map. -/
def mapSet (m : List (String × String)) (k v : String) : List (String × String) :=
  if m.any (fun p => p.1 = k) then m.map (fun p => if p.1 = k then (k, v) else p)
  else m ++ [(k, v)]

/-- Decoding into a Go `map[string]string`: `null` makes it `nil`, an object
assigns its members in order to the map (allocated when it was `nil`), each
value decoded into a fresh string. -/
def decodeStringMap (v : Value) (cur : StringMap) : StringMap × Option Error :=
  match v with
  | .null => (none, none)
  | .object members =>
    let r := members.foldl
      (fun (acc : List (String × String) × Option Error) kv =>
        let s := decodeString kv.2 ""
        (mapSet acc.1 kv.1 s.1, first acc.2 s.2))
      (cur.getD [], none)
    (some r.1, r.2)
  | other => (cur, some (.unmarshalTypeError (describe other) "map[string]string"))

/-- Simple case folding of a character, as far as it can reach an ASCII letter:
the upper-case ASCII letters, the long s and the Kelvin sign. -/
def foldRune (c : Char) : Char :=
  if 'A' ≤ c ∧ c ≤ 'Z' then Char.ofNat (c.toNat + 32)
  else if c = Char.ofNat 0x17F then 's'
  else if c = Char.ofNat 0x212A then 'k'
  else c

/-- Whether a member name selects the struct field tagged `tag` (a lower-case
ASCII name): names are matched without regard to case. -/
def matchesField (key tag : String) : Bool :=
  key.data.map foldRune = tag.data

/-- Decoding into a Go struct: `null` leaves it as it is, an object stores its
members in order through `field`, which ignores the names no field has. -/
def decodeStruct {α : Type} (field : α → String → Value → α × Option Error)
    (goType : String) (v : Value) (cur : α) : α × Option Error :=
  match v with
  | .null => (cur, none)
  | .object members =>
    members.foldl
      (fun (acc : α × Option Error) kv =>
        let r := field acc.1 kv.1 kv.2
        (r.1, first acc.2 r.2))
      (cur, none)
  | other => (cur, some (.unmarshalTypeError (describe other) goType))

/-- One member of an object stored in a `Permission`. -/
def permissionField (p : Permission) (key : String) (v : Value) : Permission × Option Error :=
  if matchesField key "id" then
    let r := decodeString v p.ID
    ({ p with ID := r.1 }, r.2)
  else if matchesField key "key" then
    let r := decodeString v p.Key
    ({ p with Key := r.1 }, r.2)
  else if matchesField key "attributes" then
    let r := decodeStringMap v p.Attributes
    ({ p with Attributes := r.1 }, r.2)
  else (p, none)

/-- Decoding into a `Permission`. -/
def decodePermission : Value → Permission → Permission × Option Error :=
  decodeStruct permissionField "cloudflare.Permission"

/-- One member of an object stored in a `PermissionGroup`. -/
def permissionGroupField (g : PermissionGroup) (key : String) (v : Value) :
    PermissionGroup × Option Error :=
  if matchesField key "id" then
    let r := decodeString v g.ID
    ({ g with ID := r.1 }, r.2)
  else if matchesField key "name" then
    let r := decodeString v g.Name
    ({ g with Name := r.1 }, r.2)
  else if matchesField key "meta" then
    let r := decodeStringMap v g.Meta
    ({ g with Meta := r.1 }, r.2)
  else if matchesField key "permissions" then
    let r := decodeSlice Permission.zero decodePermission "[]cloudflare.Permission" v
      g.Permissions
    ({ g with Permissions := r.1 }, r.2)
  else (g, none)

/-- Decoding into a `PermissionGroup`. -/
def decodePermissionGroup : Value → PermissionGroup → PermissionGroup × Option Error :=
  decodeStruct permissionGroupField "cloudflare.PermissionGroup"

/-- One member of an object stored in a `PermissionGroupListResponse`. -/
def listResponseField (r : PermissionGroupListResponse) (key : String) (v : Value) :
    PermissionGroupListResponse × Option Error :=
  if matchesField key "success" then
    let x := decodeBool v r.Success
    ({ r with Success := x.1 }, x.2)
  else if matchesField key "errors" then
    let x := decodeSlice "" decodeString "[]string" v r.Errors
    ({ r with Errors := x.1 }, x.2)
  else if matchesField key "messages" then
    let x := decodeSlice "" decodeString "[]string" v r.Messages
    ({ r with Messages := x.1 }, x.2)
  else if matchesField key "result" then
    let x := decodeSlice PermissionGroup.zero decodePermissionGroup
      "[]cloudflare.PermissionGroup" v r.Result
    ({ r with Result := x.1 }, x.2)
  else (r, none)

/-- One member of an object stored in a `PermissionGroupDetailResponse`. -/
def detailResponseField (r : PermissionGroupDetailResponse) (key : String) (v : Value) :
    PermissionGroupDetailResponse × Option Error :=
  if matchesField key "success" then
    let x := decodeBool v r.Success
    ({ r with Success := x.1 }, x.2)
  else if matchesField key "errors" then
    let x := decodeSlice "" decodeString "[]string" v r.Errors
    ({ r with Errors := x.1 }, x.2)
  else if matchesField key "messages" then
    let x := decodeSlice "" decodeString "[]string" v r.Messages
    ({ r with Messages := x.1 }, x.2)
  else if matchesField key "result" then
    let x := decodePermissionGroup v r.Result
    ({ r with Result := x.1 }, x.2)
  else (r, none)

/-- The function `json.Unmarshal(data, &v)`: a text that is not valid JSON is a
syntax error and leaves `v` untouched; otherwise the value is stored in `v` and
the first type mismatch, if any, is the error. -/
def Unmarshal {α : Type} (decode : Value → α → α × Option Error) (data : String) (v : α) :
    α × Option Error :=
  match parse data with
  | none => (v, some .syntaxError)
  | some j => decode j v

/-- The package `encoding/json` at the two target types of `permission_group.go`,
its errors seen through the Go `error` interface by `toError`. -/
def package {ε : Type} (toError : Error → ε) : JsonPackage ε where
  UnmarshalDetail data v :=
    let r := Unmarshal (decodeStruct detailResponseField
      "cloudflare.PermissionGroupDetailResponse") data v
    (r.1, r.2.map toError)
  UnmarshalList data v :=
    let r := Unmarshal (decodeStruct listResponseField
      "cloudflare.PermissionGroupListResponse") data v
    (r.1, r.2.map toError)

end encoding_json


/-! ## Concrete collaborators for the examples -/

/-- The errors of the examples: one reported by the transport, or one of
`json.Unmarshal`. -/
inductive ExampleError where
  | transport (msg : String)
  | decode (e : encoding_json.Error)
  deriving DecidableEq

/-- A transport that answers a `GET` without body for `uri` with `payload`, and
every other request with an error.  Its state counts the requests it received. -/
def mockAPI (uri payload : String) : API String ExampleError Nat where
  roundTrip req n :=
    if req.method = "GET" ∧ req.uri = uri ∧ req.params = none then ((payload, none), n + 1)
    else (("", some (.transport "unexpected request")), n + 1)

/-- A transport that fails every request with `err`, handing back an error page
as payload next to it. -/
def failingAPI (err : ExampleError) : API String ExampleError Nat where
  roundTrip _ n := (("<html>502 Bad Gateway</html>", some err), n + 1)

/-- The package `encoding/json` of the examples. -/
def exampleJson : JsonPackage ExampleError := encoding_json.package ExampleError.decode

/-- A world in which nothing has happened yet. -/
def freshWorld : World String Nat := ⟨0, [], []⟩

/-! ## Concrete payloads for the examples -/

/-- The payload of the list example of the specification:
`{"success":true,"result":[{"id":"pg1","name":"Admin","permissions":[]}]}`. -/
def adminListPayload : String :=
  "\x7b\"success\":true,\"result\":[\x7b\"id\":\"pg1\",\"name\":\"Admin\",\"permissions\":[]\x7d]\x7d"

/-- The same list reported as a failure:
`{"success":false,"errors":["boom"],"messages":["try later"],"result":[{"id":"pg1","name":"Admin","permissions":[]}]}`. -/
def failedListPayload : String :=
  "\x7b\"success\":false,\"errors\":[\"boom\"],\"messages\":[\"try later\"],\"result\":[\x7b\"id\":\"pg1\",\"name\":\"Admin\",\"permissions\":[]\x7d]\x7d"

/-- A list of two groups:
`{"success":true,"result":[{"id":"pg2","name":"Zed"},{"id":"pg1","name":"Admin"}]}`. -/
def twoGroupsPayload : String :=
  "\x7b\"success\":true,\"result\":[\x7b\"id\":\"pg2\",\"name\":\"Zed\"\x7d,\x7b\"id\":\"pg1\",\"name\":\"Admin\"\x7d]\x7d"

/-- A list whose second group has a number for a name, which the decoder rejects
after it has stored the first group:
`{"success":true,"result":[{"id":"pg1","name":"Admin"},{"id":"pg2","name":7}]}`. -/
def mistypedListPayload : String :=
  "\x7b\"success\":true,\"result\":[\x7b\"id\":\"pg1\",\"name\":\"Admin\"\x7d,\x7b\"id\":\"pg2\",\"name\":7\x7d]\x7d"

/-- A detail envelope with every field of the group present:
`{"success":true,"errors":[],"messages":[],"result":{"id":"pg1","name":"Admin","meta":{"scope":"account"},"permissions":[{"id":"p1","key":"account.read","attributes":{"legacy":"true"}},{"id":"p2","key":"dns.edit"}]}}`. -/
def adminDetailPayload : String :=
  "\x7b\"success\":true,\"errors\":[],\"messages\":[],\"result\":\x7b\"id\":\"pg1\",\"name\":\"Admin\",\"meta\":\x7b\"scope\":\"account\"\x7d,\"permissions\":[\x7b\"id\":\"p1\",\"key\":\"account.read\",\"attributes\":\x7b\"legacy\":\"true\"\x7d\x7d,\x7b\"id\":\"p2\",\"key\":\"dns.edit\"\x7d]\x7d\x7d"

/-- The group `adminDetailPayload` describes. -/
def adminGroup : PermissionGroup :=
  ⟨"pg1", "Admin", some [("scope", "account")],
    [⟨"p1", "account.read", some [("legacy", "true")]⟩, ⟨"p2", "dns.edit", none⟩]⟩

/-- The same group reported as a failure:
`{"success":false,"errors":["boom"],"result":{"id":"pg1","name":"Admin","meta":{"scope":"account"},"permissions":[{"id":"p1","key":"account.read","attributes":{"legacy":"true"}},{"id":"p2","key":"dns.edit"}]}}`. -/
def failedDetailPayload : String :=
  "\x7b\"success\":false,\"errors\":[\"boom\"],\"result\":\x7b\"id\":\"pg1\",\"name\":\"Admin\",\"meta\":\x7b\"scope\":\"account\"\x7d,\"permissions\":[\x7b\"id\":\"p1\",\"key\":\"account.read\",\"attributes\":\x7b\"legacy\":\"true\"\x7d\x7d,\x7b\"id\":\"p2\",\"key\":\"dns.edit\"\x7d]\x7d\x7d"

/-- A detail envelope whose group has a number for a name, which the decoder
rejects after it has stored the identifier:
`{"success":true,"result":{"id":"pg1","name":7}}`. -/
def mistypedDetailPayload : String :=
  "\x7b\"success\":true,\"result\":\x7b\"id\":\"pg1\",\"name\":7\x7d\x7d"

/-! ## The request URIs -/

/-- The URI `PermissionGroup` formats. -/
theorem sprintf_detail (a g : String) :
    fmt.Sprintf "/accounts/%s/iam/permission_groups/%s?depth=2" [a, g]
      = "/accounts/" ++ a ++ "/iam/permission_groups/" ++ g ++ "?depth=2" := by
  apply String.ext
  simp [fmt.Sprintf, fmt.sprintfAux, fmt.extra]

/-- The URI `PermissionGroups` formats. -/
theorem sprintf_list (a : String) :
    fmt.Sprintf "/accounts/%s/iam/permission_groups?depth=2" [a]
      = "/accounts/" ++ a ++ "/iam/permission_groups?depth=2" := by
  apply String.ext
  simp [fmt.Sprintf, fmt.sprintfAux, fmt.extra]

/-- The URI `FindPermissionGroupByName` formats: the name is spliced in as it
is. -/
theorem sprintf_find (a n : String) :
    fmt.Sprintf "/accounts/%s/iam/permission_groups?name=%s&depth=2" [a, n]
      = "/accounts/" ++ a ++ "/iam/permission_groups?name=" ++ n ++ "&depth=2" := by
  apply String.ext
  simp [fmt.Sprintf, fmt.sprintfAux, fmt.extra]

/-! ## The ways a call can end -/

section Run
variable {κ ε σ : Type}

/-- The outcome of `PermissionGroup` when the transport reports an error: the decoder is
not called. -/
theorem PermissionGroup_transport_error (api : API κ ε σ) (json : JsonPackage ε) (ctx : κ)
    (a g : String) (w : World κ σ) (e : ε)
    (h : (api.roundTrip ⟨ctx, "GET", "/accounts/" ++ a ++ "/iam/permission_groups/" ++ g ++ "?depth=2", none⟩ w.net).1.2 = some e) :
    api.PermissionGroup json ctx a g w =
      ((⟨"", "", none, []⟩, some e),
        ⟨(api.roundTrip ⟨ctx, "GET", "/accounts/" ++ a ++ "/iam/permission_groups/" ++ g ++ "?depth=2", none⟩ w.net).2,
          w.requests ++ [⟨ctx, "GET", "/accounts/" ++ a ++ "/iam/permission_groups/" ++ g ++ "?depth=2", none⟩], w.unmarshalled⟩) := by
  unfold API.PermissionGroup API.makeRequestContext
  simp only [sprintf_detail, http.MethodGet]
  revert h
  rcases api.roundTrip _ w.net with ⟨⟨res, err⟩, net2⟩
  intro h
  cases h
  rfl

/-- The outcome of `PermissionGroup` when the transport succeeds and the decoder reports
an error, whatever the decoder left in its target. -/
theorem PermissionGroup_decode_error (api : API κ ε σ) (json : JsonPackage ε) (ctx : κ)
    (a g : String) (w : World κ σ) (res : String) (v : PermissionGroupDetailResponse) (e : ε)
    (h : (api.roundTrip ⟨ctx, "GET", "/accounts/" ++ a ++ "/iam/permission_groups/" ++ g ++ "?depth=2", none⟩ w.net).1 = (res, none))
    (hd : json.UnmarshalDetail res PermissionGroupDetailResponse.zero = (v, some e)) :
    api.PermissionGroup json ctx a g w =
      ((⟨"", "", none, []⟩, some e),
        ⟨(api.roundTrip ⟨ctx, "GET", "/accounts/" ++ a ++ "/iam/permission_groups/" ++ g ++ "?depth=2", none⟩ w.net).2,
          w.requests ++ [⟨ctx, "GET", "/accounts/" ++ a ++ "/iam/permission_groups/" ++ g ++ "?depth=2", none⟩], w.unmarshalled ++ [res]⟩) := by
  unfold API.PermissionGroup API.makeRequestContext JsonPackage.unmarshalDetail
  simp only [sprintf_detail, http.MethodGet]
  revert h
  rcases api.roundTrip _ w.net with ⟨⟨res2, err⟩, net2⟩
  intro h
  cases h
  simp only [hd]
  try rfl

/-- The outcome of `PermissionGroup` when the transport and the decoder both succeed. -/
theorem PermissionGroup_ok (api : API κ ε σ) (json : JsonPackage ε) (ctx : κ)
    (a g : String) (w : World κ σ) (res : String) (v : PermissionGroupDetailResponse)
    (h : (api.roundTrip ⟨ctx, "GET", "/accounts/" ++ a ++ "/iam/permission_groups/" ++ g ++ "?depth=2", none⟩ w.net).1 = (res, none))
    (hd : json.UnmarshalDetail res PermissionGroupDetailResponse.zero = (v, none)) :
    api.PermissionGroup json ctx a g w =
      ((v.Result, none),
        ⟨(api.roundTrip ⟨ctx, "GET", "/accounts/" ++ a ++ "/iam/permission_groups/" ++ g ++ "?depth=2", none⟩ w.net).2,
          w.requests ++ [⟨ctx, "GET", "/accounts/" ++ a ++ "/iam/permission_groups/" ++ g ++ "?depth=2", none⟩], w.unmarshalled ++ [res]⟩) := by
  unfold API.PermissionGroup API.makeRequestContext JsonPackage.unmarshalDetail
  simp only [sprintf_detail, http.MethodGet]
  revert h
  rcases api.roundTrip _ w.net with ⟨⟨res2, err⟩, net2⟩
  intro h
  cases h
  simp only [hd]

/-- The trace `PermissionGroup` leaves on the transport, however the call ends. -/
theorem PermissionGroup_trace (api : API κ ε σ) (json : JsonPackage ε) (ctx : κ)
    (a g : String) (w : World κ σ) :
    (api.PermissionGroup json ctx a g w).2.requests =
        w.requests ++ [⟨ctx, "GET", "/accounts/" ++ a ++ "/iam/permission_groups/" ++ g ++ "?depth=2", none⟩] ∧
      (api.PermissionGroup json ctx a g w).2.net =
        (api.roundTrip ⟨ctx, "GET", "/accounts/" ++ a ++ "/iam/permission_groups/" ++ g ++ "?depth=2", none⟩ w.net).2 := by
  unfold API.PermissionGroup API.makeRequestContext JsonPackage.unmarshalDetail
  simp only [sprintf_detail, http.MethodGet]
  rcases api.roundTrip _ w.net with ⟨⟨res, err⟩, net2⟩
  cases err with
  | some e => exact ⟨rfl, rfl⟩
  | none =>
    simp only []
    rcases json.UnmarshalDetail res _ with ⟨v, err2⟩
    cases err2 <;> exact ⟨rfl, rfl⟩

/-- The outcome of `PermissionGroups` when the transport reports an error: the decoder is
not called. -/
theorem PermissionGroups_transport_error (api : API κ ε σ) (json : JsonPackage ε) (ctx : κ)
    (a : String) (w : World κ σ) (e : ε)
    (h : (api.roundTrip ⟨ctx, "GET", "/accounts/" ++ a ++ "/iam/permission_groups?depth=2", none⟩ w.net).1.2 = some e) :
    api.PermissionGroups json ctx a w =
      (([], some e),
        ⟨(api.roundTrip ⟨ctx, "GET", "/accounts/" ++ a ++ "/iam/permission_groups?depth=2", none⟩ w.net).2,
          w.requests ++ [⟨ctx, "GET", "/accounts/" ++ a ++ "/iam/permission_groups?depth=2", none⟩], w.unmarshalled⟩) := by
  unfold API.PermissionGroups API.makeRequestContext
  simp only [sprintf_list, http.MethodGet]
  revert h
  rcases api.roundTrip _ w.net with ⟨⟨res, err⟩, net2⟩
  intro h
  cases h
  rfl

/-- The outcome of `PermissionGroups` when the transport succeeds and the decoder reports
an error, whatever the decoder left in its target. -/
theorem PermissionGroups_decode_error (api : API κ ε σ) (json : JsonPackage ε) (ctx : κ)
    (a : String) (w : World κ σ) (res : String) (v : PermissionGroupListResponse) (e : ε)
    (h : (api.roundTrip ⟨ctx, "GET", "/accounts/" ++ a ++ "/iam/permission_groups?depth=2", none⟩ w.net).1 = (res, none))
    (hd : json.UnmarshalList res PermissionGroupListResponse.zero = (v, some e)) :
    api.PermissionGroups json ctx a w =
      (([], some e),
        ⟨(api.roundTrip ⟨ctx, "GET", "/accounts/" ++ a ++ "/iam/permission_groups?depth=2", none⟩ w.net).2,
          w.requests ++ [⟨ctx, "GET", "/accounts/" ++ a ++ "/iam/permission_groups?depth=2", none⟩], w.unmarshalled ++ [res]⟩) := by
  unfold API.PermissionGroups API.makeRequestContext JsonPackage.unmarshalList
  simp only [sprintf_list, http.MethodGet]
  revert h
  rcases api.roundTrip _ w.net with ⟨⟨res2, err⟩, net2⟩
  intro h
  cases h
  simp only [hd]
  try rfl

/-- The outcome of `PermissionGroups` when the transport and the decoder both succeed. -/
theorem PermissionGroups_ok (api : API κ ε σ) (json : JsonPackage ε) (ctx : κ)
    (a : String) (w : World κ σ) (res : String) (v : PermissionGroupListResponse)
    (h : (api.roundTrip ⟨ctx, "GET", "/accounts/" ++ a ++ "/iam/permission_groups?depth=2", none⟩ w.net).1 = (res, none))
    (hd : json.UnmarshalList res PermissionGroupListResponse.zero = (v, none)) :
    api.PermissionGroups json ctx a w =
      ((v.Result, none),
        ⟨(api.roundTrip ⟨ctx, "GET", "/accounts/" ++ a ++ "/iam/permission_groups?depth=2", none⟩ w.net).2,
          w.requests ++ [⟨ctx, "GET", "/accounts/" ++ a ++ "/iam/permission_groups?depth=2", none⟩], w.unmarshalled ++ [res]⟩) := by
  unfold API.PermissionGroups API.makeRequestContext JsonPackage.unmarshalList
  simp only [sprintf_list, http.MethodGet]
  revert h
  rcases api.roundTrip _ w.net with ⟨⟨res2, err⟩, net2⟩
  intro h
  cases h
  simp only [hd]

/-- The trace `PermissionGroups` leaves on the transport, however the call ends. -/
theorem PermissionGroups_trace (api : API κ ε σ) (json : JsonPackage ε) (ctx : κ)
    (a : String) (w : World κ σ) :
    (api.PermissionGroups json ctx a w).2.requests =
        w.requests ++ [⟨ctx, "GET", "/accounts/" ++ a ++ "/iam/permission_groups?depth=2", none⟩] ∧
      (api.PermissionGroups json ctx a w).2.net =
        (api.roundTrip ⟨ctx, "GET", "/accounts/" ++ a ++ "/iam/permission_groups?depth=2", none⟩ w.net).2 := by
  unfold API.PermissionGroups API.makeRequestContext JsonPackage.unmarshalList
  simp only [sprintf_list, http.MethodGet]
  rcases api.roundTrip _ w.net with ⟨⟨res, err⟩, net2⟩
  cases err with
  | some e => exact ⟨rfl, rfl⟩
  | none =>
    simp only []
    rcases json.UnmarshalList res _ with ⟨v, err2⟩
    cases err2 <;> exact ⟨rfl, rfl⟩

/-- The outcome of `FindPermissionGroupByName` when the transport reports an error: the decoder is
not called. -/
theorem FindPermissionGroupByName_transport_error (api : API κ ε σ) (json : JsonPackage ε) (ctx : κ)
    (a n : String) (w : World κ σ) (e : ε)
    (h : (api.roundTrip ⟨ctx, "GET", "/accounts/" ++ a ++ "/iam/permission_groups?name=" ++ n ++ "&depth=2", none⟩ w.net).1.2 = some e) :
    api.FindPermissionGroupByName json ctx a n w =
      (([], some e),
        ⟨(api.roundTrip ⟨ctx, "GET", "/accounts/" ++ a ++ "/iam/permission_groups?name=" ++ n ++ "&depth=2", none⟩ w.net).2,
          w.requests ++ [⟨ctx, "GET", "/accounts/" ++ a ++ "/iam/permission_groups?name=" ++ n ++ "&depth=2", none⟩], w.unmarshalled⟩) := by
  unfold API.FindPermissionGroupByName API.makeRequestContext
  simp only [sprintf_find, http.MethodGet]
  revert h
  rcases api.roundTrip _ w.net with ⟨⟨res, err⟩, net2⟩
  intro h
  cases h
  rfl

/-- The outcome of `FindPermissionGroupByName` when the transport succeeds and the decoder reports
an error, whatever the decoder left in its target. -/
theorem FindPermissionGroupByName_decode_error (api : API κ ε σ) (json : JsonPackage ε) (ctx : κ)
    (a n : String) (w : World κ σ) (res : String) (v : PermissionGroupListResponse) (e : ε)
    (h : (api.roundTrip ⟨ctx, "GET", "/accounts/" ++ a ++ "/iam/permission_groups?name=" ++ n ++ "&depth=2", none⟩ w.net).1 = (res, none))
    (hd : json.UnmarshalList res PermissionGroupListResponse.zero = (v, some e)) :
    api.FindPermissionGroupByName json ctx a n w =
      (([], some e),
        ⟨(api.roundTrip ⟨ctx, "GET", "/accounts/" ++ a ++ "/iam/permission_groups?name=" ++ n ++ "&depth=2", none⟩ w.net).2,
          w.requests ++ [⟨ctx, "GET", "/accounts/" ++ a ++ "/iam/permission_groups?name=" ++ n ++ "&depth=2", none⟩], w.unmarshalled ++ [res]⟩) := by
  unfold API.FindPermissionGroupByName API.makeRequestContext JsonPackage.unmarshalList
  simp only [sprintf_find, http.MethodGet]
  revert h
  rcases api.roundTrip _ w.net with ⟨⟨res2, err⟩, net2⟩
  intro h
  cases h
  simp only [hd]
  try rfl

/-- The outcome of `FindPermissionGroupByName` when the transport and the decoder both succeed. -/
theorem FindPermissionGroupByName_ok (api : API κ ε σ) (json : JsonPackage ε) (ctx : κ)
    (a n : String) (w : World κ σ) (res : String) (v : PermissionGroupListResponse)
    (h : (api.roundTrip ⟨ctx, "GET", "/accounts/" ++ a ++ "/iam/permission_groups?name=" ++ n ++ "&depth=2", none⟩ w.net).1 = (res, none))
    (hd : json.UnmarshalList res PermissionGroupListResponse.zero = (v, none)) :
    api.FindPermissionGroupByName json ctx a n w =
      ((v.Result, none),
        ⟨(api.roundTrip ⟨ctx, "GET", "/accounts/" ++ a ++ "/iam/permission_groups?name=" ++ n ++ "&depth=2", none⟩ w.net).2,
          w.requests ++ [⟨ctx, "GET", "/accounts/" ++ a ++ "/iam/permission_groups?name=" ++ n ++ "&depth=2", none⟩], w.unmarshalled ++ [res]⟩) := by
  unfold API.FindPermissionGroupByName API.makeRequestContext JsonPackage.unmarshalList
  simp only [sprintf_find, http.MethodGet]
  revert h
  rcases api.roundTrip _ w.net with ⟨⟨res2, err⟩, net2⟩
  intro h
  cases h
  simp only [hd]

/-- The trace `FindPermissionGroupByName` leaves on the transport, however the call ends. -/
theorem FindPermissionGroupByName_trace (api : API κ ε σ) (json : JsonPackage ε) (ctx : κ)
    (a n : String) (w : World κ σ) :
    (api.FindPermissionGroupByName json ctx a n w).2.requests =
        w.requests ++ [⟨ctx, "GET", "/accounts/" ++ a ++ "/iam/permission_groups?name=" ++ n ++ "&depth=2", none⟩] ∧
      (api.FindPermissionGroupByName json ctx a n w).2.net =
        (api.roundTrip ⟨ctx, "GET", "/accounts/" ++ a ++ "/iam/permission_groups?name=" ++ n ++ "&depth=2", none⟩ w.net).2 := by
  unfold API.FindPermissionGroupByName API.makeRequestContext JsonPackage.unmarshalList
  simp only [sprintf_find, http.MethodGet]
  rcases api.roundTrip _ w.net with ⟨⟨res, err⟩, net2⟩
  cases err with
  | some e => exact ⟨rfl, rfl⟩
  | none =>
    simp only []
    rcases json.UnmarshalList res _ with ⟨v, err2⟩
    cases err2 <;> exact ⟨rfl, rfl⟩

end Run

/-! ## The decoder model on the `result` member -/

namespace encoding_json

/-- A member that is not named `result` leaves the field `Result` as it is. -/
theorem listResponseField_other (r : PermissionGroupListResponse) (key : String) (v : Value)
    (h : matchesField key "result" = false) :
    (listResponseField r key v).1.Result = r.Result := by
  unfold listResponseField
  split_ifs <;> first | rfl | simp_all

/-- Members of which none is named `result` leave the field `Result` as it is. -/
theorem foldl_listResponseField_other (members : List (String × Value))
    (acc : PermissionGroupListResponse × Option Error)
    (h : ∀ m ∈ members, matchesField m.1 "result" = false) :
    (members.foldl
      (fun (acc : PermissionGroupListResponse × Option Error) kv =>
        let r := listResponseField acc.1 kv.1 kv.2
        (r.1, first acc.2 r.2)) acc).1.Result = acc.1.Result := by
  induction members generalizing acc with
  | nil => rfl
  | cons m ms ih =>
    rw [List.foldl_cons, ih _ (fun x hx => h x (List.mem_cons_of_mem _ hx))]
    exact listResponseField_other acc.1 m.1 m.2 (h m (List.mem_cons_self _ _))

/-- A member named `result` that holds an array stores the array's elements in
the field `Result`. -/
theorem listResponseField_result (r : PermissionGroupListResponse) (key : String)
    (elems : List Value) (h : matchesField key "result" = true) :
    (listResponseField r key (.array elems)).1.Result
      = (decodeElems PermissionGroup.zero decodePermissionGroup elems r.Result).1 := by
  have hk : key.data.map foldRune = "result".data := by
    simpa [matchesField] using h
  have h1 : matchesField key "success" = false := by
    simp only [matchesField, hk]; decide
  have h2 : matchesField key "errors" = false := by
    simp only [matchesField, hk]; decide
  have h3 : matchesField key "messages" = false := by
    simp only [matchesField, hk]; decide
  simp only [listResponseField, h1, h2, h3, h, decodeSlice]
  rfl

/-- Decoded into an empty slice, the elements of an array are decoded one by
one, each into a zero value, and kept in their order. -/
theorem decodeElems_nil {α : Type} (zero : α) (decodeElem : Value → α → α × Option Error)
    (elems : List Value) :
    (decodeElems zero decodeElem elems []).1 = elems.map (fun v => (decodeElem v zero).1) := by
  induction elems with
  | nil => rfl
  | cons v vs ih =>
    simp only [decodeElems, List.headD_nil, List.tail_nil, List.map_cons, ih]

/-- For a payload that is a JSON object with one member named `result`, an array:
the field `Result` of the decoded envelope is that array decoded element by
element. -/
theorem unmarshalList_result {ε : Type} (toError : Error → ε) (data : String)
    (pre post : List (String × Value)) (key : String) (elems : List Value)
    (hp : parse data = some (.object (pre ++ (key, .array elems) :: post)))
    (hk : matchesField key "result" = true)
    (hu : ∀ m ∈ pre ++ post, matchesField m.1 "result" = false) :
    ((package toError).UnmarshalList data PermissionGroupListResponse.zero).1.Result
      = elems.map (fun v => (decodePermissionGroup v PermissionGroup.zero).1) := by
  simp only [package, Unmarshal, hp, decodeStruct, List.foldl_append, List.foldl_cons]
  rw [foldl_listResponseField_other post _
    (fun m hm => hu m (List.mem_append_right _ hm))]
  simp only []
  rw [listResponseField_result _ key elems hk,
    foldl_listResponseField_other pre _ (fun m hm => hu m (List.mem_append_left _ hm))]
  exact decodeElems_nil _ _ elems

end encoding_json

/-! ## The properties of the specification -/

section Properties
variable {κ ε σ ρ : Type}

/-- C1: when the transport call returns an error `e`, each of the four operations
returns exactly `e` with the zero value of its return type (a `PermissionGroup`
with empty ID, empty Name, no Meta and no Permissions, or a sequence of length
0), whatever payload came with the error, and nothing is handed to the
decoder. -/
theorem transport_error_returned_unchanged (api : API κ ε σ) (json : JsonPackage ε) (ctx : κ)
    (a g n : String) (role : AccountRole ρ) (w : World κ σ) (e : ε) :
    ((api.roundTrip ⟨ctx, "GET", "/accounts/" ++ a ++ "/iam/permission_groups/" ++ g
          ++ "?depth=2", none⟩ w.net).1.2 = some e →
      (api.PermissionGroup json ctx a g w).1 = (⟨"", "", none, []⟩, some e) ∧
      (api.PermissionGroup json ctx a g w).2.unmarshalled = w.unmarshalled) ∧
    ((api.roundTrip ⟨ctx, "GET", "/accounts/" ++ a ++ "/iam/permission_groups?depth=2",
          none⟩ w.net).1.2 = some e →
      (api.PermissionGroups json ctx a w).1 = ([], some e) ∧
      (api.PermissionGroups json ctx a w).1.1.length = 0 ∧
      (api.PermissionGroups json ctx a w).2.unmarshalled = w.unmarshalled) ∧
    ((api.roundTrip ⟨ctx, "GET", "/accounts/" ++ a ++ "/iam/permission_groups?name=" ++ n
          ++ "&depth=2", none⟩ w.net).1.2 = some e →
      (api.FindPermissionGroupByName json ctx a n w).1 = ([], some e) ∧
      (api.FindPermissionGroupByName json ctx a n w).1.1.length = 0 ∧
      (api.FindPermissionGroupByName json ctx a n w).2.unmarshalled = w.unmarshalled) ∧
    ((api.roundTrip ⟨ctx, "GET", "/accounts/" ++ a ++ "/iam/permission_groups?name="
          ++ role.Name ++ "&depth=2", none⟩ w.net).1.2 = some e →
      (api.FindPermissionGroupForRole json ctx a role w).1 = ([], some e) ∧
      (api.FindPermissionGroupForRole json ctx a role w).1.1.length = 0 ∧
      (api.FindPermissionGroupForRole json ctx a role w).2.unmarshalled = w.unmarshalled) := by
  refine ⟨fun h => ?_, fun h => ?_, fun h => ?_, fun h => ?_⟩
  · rw [PermissionGroup_transport_error api json ctx a g w e h]
    exact ⟨rfl, rfl⟩
  · rw [PermissionGroups_transport_error api json ctx a w e h]
    exact ⟨rfl, rfl, rfl⟩
  · rw [FindPermissionGroupByName_transport_error api json ctx a n w e h]
    exact ⟨rfl, rfl, rfl⟩
  · unfold API.FindPermissionGroupForRole
    rw [FindPermissionGroupByName_transport_error api json ctx a role.Name w e h]
    exact ⟨rfl, rfl, rfl⟩

/-- C2: when the transport call succeeds and the decoder rejects the payload with
an error `e`, each of the four operations returns `e` unchanged with the zero
value of its return type, whatever the decoder had stored in its target (`v`,
`l`) before it failed. -/
theorem decode_error_returned_unchanged (api : API κ ε σ) (json : JsonPackage ε) (ctx : κ)
    (a g n : String) (role : AccountRole ρ) (w : World κ σ) (res : String)
    (v : PermissionGroupDetailResponse) (l : PermissionGroupListResponse) (e : ε) :
    ((api.roundTrip ⟨ctx, "GET", "/accounts/" ++ a ++ "/iam/permission_groups/" ++ g
          ++ "?depth=2", none⟩ w.net).1 = (res, none) →
      json.UnmarshalDetail res PermissionGroupDetailResponse.zero = (v, some e) →
      (api.PermissionGroup json ctx a g w).1 = (⟨"", "", none, []⟩, some e)) ∧
    ((api.roundTrip ⟨ctx, "GET", "/accounts/" ++ a ++ "/iam/permission_groups?depth=2",
          none⟩ w.net).1 = (res, none) →
      json.UnmarshalList res PermissionGroupListResponse.zero = (l, some e) →
      (api.PermissionGroups json ctx a w).1 = ([], some e)) ∧
    ((api.roundTrip ⟨ctx, "GET", "/accounts/" ++ a ++ "/iam/permission_groups?name=" ++ n
          ++ "&depth=2", none⟩ w.net).1 = (res, none) →
      json.UnmarshalList res PermissionGroupListResponse.zero = (l, some e) →
      (api.FindPermissionGroupByName json ctx a n w).1 = ([], some e)) ∧
    ((api.roundTrip ⟨ctx, "GET", "/accounts/" ++ a ++ "/iam/permission_groups?name="
          ++ role.Name ++ "&depth=2", none⟩ w.net).1 = (res, none) →
      json.UnmarshalList res PermissionGroupListResponse.zero = (l, some e) →
      (api.FindPermissionGroupForRole json ctx a role w).1 = ([], some e)) := by
  refine ⟨fun h hd => ?_, fun h hd => ?_, fun h hd => ?_, fun h hd => ?_⟩
  · rw [PermissionGroup_decode_error api json ctx a g w res v e h hd]
  · rw [PermissionGroups_decode_error api json ctx a w res l e h hd]
  · rw [FindPermissionGroupByName_decode_error api json ctx a n w res l e h hd]
  · unfold API.FindPermissionGroupForRole
    rw [FindPermissionGroupByName_decode_error api json ctx a role.Name w res l e h hd]

/-- C3: when the transport call succeeds and the payload decodes without error to
a Detail envelope `E`, `PermissionGroup` returns a nil error and a group equal to
`E.Result`: the same ID, Name, Meta and Permissions, and in the Permissions the
same ID, Key and Attributes at every position. -/
theorem PermissionGroup_returns_result (api : API κ ε σ) (json : JsonPackage ε) (ctx : κ)
    (a g : String) (w : World κ σ) (res : String) (E : PermissionGroupDetailResponse)
    (h : (api.roundTrip ⟨ctx, "GET", "/accounts/" ++ a ++ "/iam/permission_groups/" ++ g
          ++ "?depth=2", none⟩ w.net).1 = (res, none))
    (hd : json.UnmarshalDetail res PermissionGroupDetailResponse.zero = (E, none)) :
    (api.PermissionGroup json ctx a g w).1 = (E.Result, none) ∧
    (api.PermissionGroup json ctx a g w).1.1.ID = E.Result.ID ∧
    (api.PermissionGroup json ctx a g w).1.1.Name = E.Result.Name ∧
    (api.PermissionGroup json ctx a g w).1.1.Meta = E.Result.Meta ∧
    (api.PermissionGroup json ctx a g w).1.1.Permissions.length
      = E.Result.Permissions.length ∧
    (∀ i : Nat, ((api.PermissionGroup json ctx a g w).1.1.Permissions[i]?).map
        (fun p => (p.ID, p.Key, p.Attributes))
      = (E.Result.Permissions[i]?).map (fun p => (p.ID, p.Key, p.Attributes))) := by
  rw [PermissionGroup_ok api json ctx a g w res E h hd]
  exact ⟨rfl, rfl, rfl, rfl, rfl, fun _ => rfl⟩

/-- C4: when the transport call succeeds and the payload decodes without error to
a List envelope `E`, `PermissionGroups` and `FindPermissionGroupByName` return a
nil error and the sequence `E.Result` itself: the same length and at every
index the same element, nothing re-sorted, dropped, duplicated or merged.  With
the decoder of `encoding/json`, for a payload that is an object with one member
named `result`, an array: the sequence has the length of that array and its
i-th element is the decoding of the array's i-th element. -/
theorem list_returned_in_order (api : API κ ε σ) (json : JsonPackage ε) (ctx : κ)
    (a n : String) (w : World κ σ) (res : String) (E : PermissionGroupListResponse) :
    ((api.roundTrip ⟨ctx, "GET", "/accounts/" ++ a ++ "/iam/permission_groups?depth=2",
          none⟩ w.net).1 = (res, none) →
      json.UnmarshalList res PermissionGroupListResponse.zero = (E, none) →
      (api.PermissionGroups json ctx a w).1 = (E.Result, none) ∧
      (api.PermissionGroups json ctx a w).1.1.length = E.Result.length ∧
      ∀ i : Nat, (api.PermissionGroups json ctx a w).1.1[i]? = E.Result[i]?) ∧
    ((api.roundTrip ⟨ctx, "GET", "/accounts/" ++ a ++ "/iam/permission_groups?name=" ++ n
          ++ "&depth=2", none⟩ w.net).1 = (res, none) →
      json.UnmarshalList res PermissionGroupListResponse.zero = (E, none) →
      (api.FindPermissionGroupByName json ctx a n w).1 = (E.Result, none) ∧
      (api.FindPermissionGroupByName json ctx a n w).1.1.length = E.Result.length ∧
      ∀ i : Nat, (api.FindPermissionGroupByName json ctx a n w).1.1[i]?
        = E.Result[i]?) ∧
    (∀ (toError : encoding_json.Error → ε) (pre post : List (String × encoding_json.Value))
        (key : String) (elems : List encoding_json.Value),
      encoding_json.parse res = some (.object (pre ++ (key, .array elems) :: post)) →
      encoding_json.matchesField key "result" = true →
      (∀ m ∈ pre ++ post, encoding_json.matchesField m.1 "result" = false) →
      (encoding_json.package toError).UnmarshalList res PermissionGroupListResponse.zero
        = (E, none) →
      ((api.roundTrip ⟨ctx, "GET", "/accounts/" ++ a ++ "/iam/permission_groups?depth=2",
            none⟩ w.net).1 = (res, none) →
        (api.PermissionGroups (encoding_json.package toError) ctx a w).1.2 = none ∧
        (api.PermissionGroups (encoding_json.package toError) ctx a w).1.1.length
          = elems.length ∧
        ∀ i : Nat, (api.PermissionGroups (encoding_json.package toError) ctx a w).1.1[i]?
          = (elems[i]?).map
              (fun v => (encoding_json.decodePermissionGroup v PermissionGroup.zero).1)) ∧
      ((api.roundTrip ⟨ctx, "GET", "/accounts/" ++ a ++ "/iam/permission_groups?name=" ++ n
            ++ "&depth=2", none⟩ w.net).1 = (res, none) →
        (api.FindPermissionGroupByName (encoding_json.package toError) ctx a n w).1.2 = none ∧
        (api.FindPermissionGroupByName (encoding_json.package toError) ctx a n w).1.1.length
          = elems.length ∧
        ∀ i : Nat,
          (api.FindPermissionGroupByName (encoding_json.package toError) ctx a n w).1.1[i]?
          = (elems[i]?).map
              (fun v => (encoding_json.decodePermissionGroup v PermissionGroup.zero).1))) := by
  refine ⟨fun h hd => ?_, fun h hd => ?_, fun toError pre post key elems hp hk hu hd => ?_⟩
  · rw [PermissionGroups_ok api json ctx a w res E h hd]
    exact ⟨rfl, rfl, fun _ => rfl⟩
  · rw [FindPermissionGroupByName_ok api json ctx a n w res E h hd]
    exact ⟨rfl, rfl, fun _ => rfl⟩
  · have hr := encoding_json.unmarshalList_result toError res pre post key elems hp hk hu
    rw [hd] at hr
    have hr2 : E.Result
        = elems.map (fun v => (encoding_json.decodePermissionGroup v PermissionGroup.zero).1) :=
      hr
    refine ⟨fun h => ?_, fun h => ?_⟩
    · rw [PermissionGroups_ok api _ ctx a w res E h hd]
      refine ⟨rfl, ?_, fun i => ?_⟩
      · show E.Result.length = elems.length
        rw [hr2, List.length_map]
      · show E.Result[i]? = _
        rw [hr2, List.getElem?_map]
    · rw [FindPermissionGroupByName_ok api _ ctx a n w res E h hd]
      refine ⟨rfl, ?_, fun i => ?_⟩
      · show E.Result.length = elems.length
        rw [hr2, List.length_map]
      · show E.Result[i]? = _
        rw [hr2, List.getElem?_map]

/-- C5: for every account ID `a` and group ID `g`, the one request `PermissionGroup`
hands to the transport has method GET and the URI
`"/accounts/" ++ a ++ "/iam/permission_groups/" ++ g ++ "?depth=2"`; the URI
always ends in `?depth=2`, and nothing but `a` and `g` enters it. -/
theorem PermissionGroup_request (api : API κ ε σ) (json : JsonPackage ε) (ctx : κ)
    (a g : String) (w : World κ σ) :
    (api.PermissionGroup json ctx a g w).2.requests =
      w.requests ++ [⟨ctx, "GET",
        "/accounts/" ++ a ++ "/iam/permission_groups/" ++ g ++ "?depth=2", none⟩] ∧
    (∀ r ∈ (api.PermissionGroup json ctx a g w).2.requests.drop w.requests.length,
      r.method = "GET" ∧ "?depth=2".data <:+ r.uri.data) := by
  rw [(PermissionGroup_trace api json ctx a g w).1]
  refine ⟨rfl, ?_⟩
  intro r hr
  rw [List.drop_left] at hr
  rw [List.mem_singleton] at hr
  subst hr
  refine ⟨rfl, ?_⟩
  exact ⟨("/accounts/" ++ a ++ "/iam/permission_groups/" ++ g).data, by simp⟩

/-- C6: for every account ID `a`, the one request `PermissionGroups` hands to the
transport has method GET and the URI
`"/accounts/" ++ a ++ "/iam/permission_groups?depth=2"`.  For `a = "acct123"`
that is `/accounts/acct123/iam/permission_groups?depth=2`, and when the transport
answers it with
`{"success":true,"result":[{"id":"pg1","name":"Admin","permissions":[]}]}`, the
decoder of `encoding/json` yields a nil error and one element with ID `pg1`,
Name `Admin` and empty Permissions. -/
theorem PermissionGroups_request (api : API κ ε σ) (json : JsonPackage ε) (ctx : κ)
    (a : String) (w : World κ σ) (toError : encoding_json.Error → ε) :
    (api.PermissionGroups json ctx a w).2.requests =
      w.requests ++ [⟨ctx, "GET", "/accounts/" ++ a ++ "/iam/permission_groups?depth=2",
        none⟩] ∧
    (api.PermissionGroups json ctx "acct123" w).2.requests =
      w.requests ++ [⟨ctx, "GET", "/accounts/acct123/iam/permission_groups?depth=2", none⟩] ∧
    ((api.roundTrip ⟨ctx, "GET", "/accounts/acct123/iam/permission_groups?depth=2", none⟩
          w.net).1 = (adminListPayload, none) →
      (api.PermissionGroups (encoding_json.package toError) ctx "acct123" w).1
        = ([⟨"pg1", "Admin", none, []⟩], none) ∧
      (api.PermissionGroups (encoding_json.package toError) ctx "acct123" w).1.1.length = 1 ∧
      (api.PermissionGroups (encoding_json.package toError) ctx "acct123" w).1.1.map
        (fun p => (p.ID, p.Name, p.Permissions)) = [("pg1", "Admin", [])]) := by
  have huri : "/accounts/" ++ "acct123" ++ "/iam/permission_groups?depth=2"
      = "/accounts/acct123/iam/permission_groups?depth=2" := by decide
  refine ⟨(PermissionGroups_trace api json ctx a w).1, ?_, fun h => ?_⟩
  · rw [(PermissionGroups_trace api json ctx "acct123" w).1, huri]
  · have hdec : encoding_json.Unmarshal
        (encoding_json.decodeStruct encoding_json.listResponseField
          "cloudflare.PermissionGroupListResponse")
        adminListPayload PermissionGroupListResponse.zero
        = (⟨true, [], [], [⟨"pg1", "Admin", none, []⟩]⟩, none) := by decide
    have hd : (encoding_json.package toError).UnmarshalList adminListPayload
        PermissionGroupListResponse.zero
        = (⟨true, [], [], [⟨"pg1", "Admin", none, []⟩]⟩, none) := by
      simp only [encoding_json.package, hdec, Option.map]
    rw [← huri] at h
    rw [PermissionGroups_ok api (encoding_json.package toError) ctx "acct123" w
      adminListPayload _ h hd]
    exact ⟨rfl, rfl, rfl⟩

/-- C7: for every account ID `a` and every name `n`, whatever characters it
holds, the one request `FindPermissionGroupByName` hands to the transport has the
URI of the list endpoint for `a` with `name=` followed by `n`, copied verbatim,
and `&` put between the `?` and `depth=2`: one `name=<value>` parameter is added,
and no character of `n` is escaped. -/
theorem FindPermissionGroupByName_request (api : API κ ε σ) (json : JsonPackage ε) (ctx : κ)
    (a n : String) (w : World κ σ) :
    (api.FindPermissionGroupByName json ctx a n w).2.requests =
      w.requests ++ [⟨ctx, "GET",
        "/accounts/" ++ a ++ "/iam/permission_groups" ++ "?" ++ "name=" ++ n ++ "&"
          ++ "depth=2", none⟩] ∧
    (api.PermissionGroups json ctx a w).2.requests =
      w.requests ++ [⟨ctx, "GET",
        "/accounts/" ++ a ++ "/iam/permission_groups" ++ "?" ++ "depth=2", none⟩] ∧
    (api.FindPermissionGroupByName json ctx "acct123" "R&D = 100%? #1" w).2.requests =
      w.requests ++ [⟨ctx, "GET",
        "/accounts/acct123/iam/permission_groups?name=R&D = 100%? #1&depth=2", none⟩] := by
  refine ⟨?_, ?_, ?_⟩
  · rw [(FindPermissionGroupByName_trace api json ctx a n w).1]
    simp only [String.append_assoc]
    rfl
  · rw [(PermissionGroups_trace api json ctx a w).1]
    simp only [String.append_assoc]
    rfl
  · rw [(FindPermissionGroupByName_trace api json ctx "acct123" "R&D = 100%? #1" w).1]
    have huri : "/accounts/" ++ "acct123" ++ "/iam/permission_groups?name="
        ++ "R&D = 100%? #1" ++ "&depth=2"
        = "/accounts/acct123/iam/permission_groups?name=R&D = 100%? #1&depth=2" := by decide
    rw [huri]

/-- C8: `FindPermissionGroupForRole(ctx, acct, role)` is
`FindPermissionGroupByName(ctx, acct, role.Name)`: the same result and error, the
same request handed to the transport (context, method, URI, no body) and the same
world afterwards; two roles with the same Name give the same outcome whatever
their other fields are. -/
theorem FindPermissionGroupForRole_delegates (api : API κ ε σ) (json : JsonPackage ε)
    (ctx : κ) (a : String) (role role2 : AccountRole ρ) (w : World κ σ) :
    api.FindPermissionGroupForRole json ctx a role w
      = api.FindPermissionGroupByName json ctx a role.Name w ∧
    (api.FindPermissionGroupForRole json ctx a role w).2.requests =
      w.requests ++ [⟨ctx, "GET",
        "/accounts/" ++ a ++ "/iam/permission_groups?name=" ++ role.Name ++ "&depth=2",
        none⟩] ∧
    (api.FindPermissionGroupByName json ctx a role.Name w).2.requests =
      w.requests ++ [⟨ctx, "GET",
        "/accounts/" ++ a ++ "/iam/permission_groups?name=" ++ role.Name ++ "&depth=2",
        none⟩] ∧
    (role.Name = role2.Name →
      api.FindPermissionGroupForRole json ctx a role w
        = api.FindPermissionGroupForRole json ctx a role2 w) := by
  refine ⟨rfl, ?_, ?_, fun h => ?_⟩
  · exact (FindPermissionGroupByName_trace api json ctx a role.Name w).1
  · exact (FindPermissionGroupByName_trace api json ctx a role.Name w).1
  · unfold API.FindPermissionGroupForRole
    rw [h]

/-- C9: every call of each of the four operations, however it ends, appends
exactly one request to the log of the transport and steps the transport once;
that request has method GET, no body, and the context the caller supplied. -/
theorem one_request_per_call (api : API κ ε σ) (json : JsonPackage ε) (ctx : κ)
    (a g n : String) (role : AccountRole ρ) (w : World κ σ) :
    ((api.PermissionGroup json ctx a g w).2.requests =
        w.requests ++ [⟨ctx, "GET",
          "/accounts/" ++ a ++ "/iam/permission_groups/" ++ g ++ "?depth=2", none⟩] ∧
      (api.PermissionGroup json ctx a g w).2.requests.length = w.requests.length + 1 ∧
      (api.PermissionGroup json ctx a g w).2.net =
        (api.roundTrip ⟨ctx, "GET",
          "/accounts/" ++ a ++ "/iam/permission_groups/" ++ g ++ "?depth=2", none⟩
          w.net).2) ∧
    ((api.PermissionGroups json ctx a w).2.requests =
        w.requests ++ [⟨ctx, "GET", "/accounts/" ++ a ++ "/iam/permission_groups?depth=2",
          none⟩] ∧
      (api.PermissionGroups json ctx a w).2.requests.length = w.requests.length + 1 ∧
      (api.PermissionGroups json ctx a w).2.net =
        (api.roundTrip ⟨ctx, "GET", "/accounts/" ++ a ++ "/iam/permission_groups?depth=2",
          none⟩ w.net).2) ∧
    ((api.FindPermissionGroupByName json ctx a n w).2.requests =
        w.requests ++ [⟨ctx, "GET",
          "/accounts/" ++ a ++ "/iam/permission_groups?name=" ++ n ++ "&depth=2", none⟩] ∧
      (api.FindPermissionGroupByName json ctx a n w).2.requests.length
        = w.requests.length + 1 ∧
      (api.FindPermissionGroupByName json ctx a n w).2.net =
        (api.roundTrip ⟨ctx, "GET",
          "/accounts/" ++ a ++ "/iam/permission_groups?name=" ++ n ++ "&depth=2", none⟩
          w.net).2) ∧
    ((api.FindPermissionGroupForRole json ctx a role w).2.requests =
        w.requests ++ [⟨ctx, "GET",
          "/accounts/" ++ a ++ "/iam/permission_groups?name=" ++ role.Name ++ "&depth=2",
          none⟩] ∧
      (api.FindPermissionGroupForRole json ctx a role w).2.requests.length
        = w.requests.length + 1 ∧
      (api.FindPermissionGroupForRole json ctx a role w).2.net =
        (api.roundTrip ⟨ctx, "GET",
          "/accounts/" ++ a ++ "/iam/permission_groups?name=" ++ role.Name ++ "&depth=2",
          none⟩ w.net).2) := by
  have h1 := PermissionGroup_trace api json ctx a g w
  have h2 := PermissionGroups_trace api json ctx a w
  have h3 := FindPermissionGroupByName_trace api json ctx a n w
  have h4 := FindPermissionGroupByName_trace api json ctx a role.Name w
  refine ⟨⟨h1.1, ?_, h1.2⟩, ⟨h2.1, ?_, h2.2⟩, ⟨h3.1, ?_, h3.2⟩, ⟨h4.1, ?_, h4.2⟩⟩
  · rw [h1.1, List.length_append, List.length_singleton]
  · rw [h2.1, List.length_append, List.length_singleton]
  · rw [h3.1, List.length_append, List.length_singleton]
  · unfold API.FindPermissionGroupForRole
    rw [h4.1, List.length_append, List.length_singleton]

/-- C10: the fields Success, Errors and Messages of a decoded envelope do not
influence the outcome.  Two calls whose payloads decode without error to
envelopes with the same Result return the same result with a nil error, however
the envelopes differ in Success, Errors and Messages; so an envelope with
Success false and a non-empty Errors list, delivered without a transport error,
yields its Result and a nil error. -/
theorem envelope_flags_ignored (api api2 : API κ ε σ) (json : JsonPackage ε) (ctx : κ)
    (a g n : String) (role : AccountRole ρ) (w w2 : World κ σ) (res res2 : String)
    (D D2 : PermissionGroupDetailResponse) (L L2 : PermissionGroupListResponse) :
    ((api.roundTrip ⟨ctx, "GET", "/accounts/" ++ a ++ "/iam/permission_groups/" ++ g
          ++ "?depth=2", none⟩ w.net).1 = (res, none) →
      (api2.roundTrip ⟨ctx, "GET", "/accounts/" ++ a ++ "/iam/permission_groups/" ++ g
          ++ "?depth=2", none⟩ w2.net).1 = (res2, none) →
      json.UnmarshalDetail res PermissionGroupDetailResponse.zero = (D, none) →
      json.UnmarshalDetail res2 PermissionGroupDetailResponse.zero = (D2, none) →
      D.Result = D2.Result →
      (api.PermissionGroup json ctx a g w).1 = (D.Result, none) ∧
      (api2.PermissionGroup json ctx a g w2).1 = (api.PermissionGroup json ctx a g w).1) ∧
    ((api.roundTrip ⟨ctx, "GET", "/accounts/" ++ a ++ "/iam/permission_groups?depth=2",
          none⟩ w.net).1 = (res, none) →
      (api2.roundTrip ⟨ctx, "GET", "/accounts/" ++ a ++ "/iam/permission_groups?depth=2",
          none⟩ w2.net).1 = (res2, none) →
      json.UnmarshalList res PermissionGroupListResponse.zero = (L, none) →
      json.UnmarshalList res2 PermissionGroupListResponse.zero = (L2, none) →
      L.Result = L2.Result →
      (api.PermissionGroups json ctx a w).1 = (L.Result, none) ∧
      (api2.PermissionGroups json ctx a w2).1 = (api.PermissionGroups json ctx a w).1) ∧
    ((api.roundTrip ⟨ctx, "GET", "/accounts/" ++ a ++ "/iam/permission_groups?name=" ++ n
          ++ "&depth=2", none⟩ w.net).1 = (res, none) →
      (api2.roundTrip ⟨ctx, "GET", "/accounts/" ++ a ++ "/iam/permission_groups?name=" ++ n
          ++ "&depth=2", none⟩ w2.net).1 = (res2, none) →
      json.UnmarshalList res PermissionGroupListResponse.zero = (L, none) →
      json.UnmarshalList res2 PermissionGroupListResponse.zero = (L2, none) →
      L.Result = L2.Result →
      (api.FindPermissionGroupByName json ctx a n w).1 = (L.Result, none) ∧
      (api2.FindPermissionGroupByName json ctx a n w2).1
        = (api.FindPermissionGroupByName json ctx a n w).1) ∧
    ((api.roundTrip ⟨ctx, "GET", "/accounts/" ++ a ++ "/iam/permission_groups?name="
          ++ role.Name ++ "&depth=2", none⟩ w.net).1 = (res, none) →
      (api2.roundTrip ⟨ctx, "GET", "/accounts/" ++ a ++ "/iam/permission_groups?name="
          ++ role.Name ++ "&depth=2", none⟩ w2.net).1 = (res2, none) →
      json.UnmarshalList res PermissionGroupListResponse.zero = (L, none) →
      json.UnmarshalList res2 PermissionGroupListResponse.zero = (L2, none) →
      L.Result = L2.Result →
      (api.FindPermissionGroupForRole json ctx a role w).1 = (L.Result, none) ∧
      (api2.FindPermissionGroupForRole json ctx a role w2).1
        = (api.FindPermissionGroupForRole json ctx a role w).1) := by
  refine ⟨fun h h2 hD hD2 hR => ?_, fun h h2 hL hL2 hR => ?_, fun h h2 hL hL2 hR => ?_,
    fun h h2 hL hL2 hR => ?_⟩
  · rw [PermissionGroup_ok api json ctx a g w res D h hD,
      PermissionGroup_ok api2 json ctx a g w2 res2 D2 h2 hD2, hR]
    exact ⟨rfl, rfl⟩
  · rw [PermissionGroups_ok api json ctx a w res L h hL,
      PermissionGroups_ok api2 json ctx a w2 res2 L2 h2 hL2, hR]
    exact ⟨rfl, rfl⟩
  · rw [FindPermissionGroupByName_ok api json ctx a n w res L h hL,
      FindPermissionGroupByName_ok api2 json ctx a n w2 res2 L2 h2 hL2, hR]
    exact ⟨rfl, rfl⟩
  · unfold API.FindPermissionGroupForRole
    rw [FindPermissionGroupByName_ok api json ctx a role.Name w res L h hL,
      FindPermissionGroupByName_ok api2 json ctx a role.Name w2 res2 L2 h2 hL2, hR]
    exact ⟨rfl, rfl⟩

end Properties

/-! ## The properties at concrete inputs -/

set_option maxRecDepth 100000

/-- The transport fails with `timeout` and an error page: all four operations
return that error with an empty result and decode nothing. -/
theorem transport_error_returned_unchanged_witness :
    ((failingAPI (.transport "timeout")).PermissionGroup exampleJson "ctx" "acct123" "pg1"
        freshWorld).1 = (⟨"", "", none, []⟩, some (.transport "timeout")) ∧
    ((failingAPI (.transport "timeout")).PermissionGroup exampleJson "ctx" "acct123" "pg1"
        freshWorld).2.unmarshalled = [] ∧
    ((failingAPI (.transport "timeout")).PermissionGroups exampleJson "ctx" "acct123"
        freshWorld).1 = ([], some (.transport "timeout")) ∧
    ((failingAPI (.transport "timeout")).FindPermissionGroupByName exampleJson "ctx" "acct123"
        "Admin" freshWorld).1 = ([], some (.transport "timeout")) ∧
    ((failingAPI (.transport "timeout")).FindPermissionGroupForRole exampleJson "ctx" "acct123"
        (⟨"Admin", 7⟩ : AccountRole Nat) freshWorld).1 = ([], some (.transport "timeout")) := by
  have t := transport_error_returned_unchanged (failingAPI (.transport "timeout")) exampleJson
    "ctx" "acct123" "pg1" "Admin" (⟨"Admin", 7⟩ : AccountRole Nat) freshWorld
    (.transport "timeout")
  exact ⟨(t.1 rfl).1, (t.1 rfl).2, (t.2.1 rfl).1, (t.2.2.1 rfl).1, (t.2.2.2 rfl).1⟩

/-- The decoder rejects a group whose name is a number after it has stored part
of the payload; the operations return its error with an empty result. -/
theorem decode_error_returned_unchanged_witness :
    exampleJson.UnmarshalDetail mistypedDetailPayload PermissionGroupDetailResponse.zero
      = (⟨true, [], [], ⟨"pg1", "", none, []⟩⟩,
          some (.decode (.unmarshalTypeError "number" "string"))) ∧
    ((mockAPI "/accounts/acct123/iam/permission_groups/pg1?depth=2"
        mistypedDetailPayload).PermissionGroup exampleJson "ctx" "acct123" "pg1" freshWorld).1
      = (⟨"", "", none, []⟩, some (.decode (.unmarshalTypeError "number" "string"))) ∧
    exampleJson.UnmarshalList mistypedListPayload PermissionGroupListResponse.zero
      = (⟨true, [], [], [⟨"pg1", "Admin", none, []⟩, ⟨"pg2", "", none, []⟩]⟩,
          some (.decode (.unmarshalTypeError "number" "string"))) ∧
    ((mockAPI "/accounts/acct123/iam/permission_groups?depth=2"
        mistypedListPayload).PermissionGroups exampleJson "ctx" "acct123" freshWorld).1
      = ([], some (.decode (.unmarshalTypeError "number" "string"))) ∧
    ((mockAPI "/accounts/acct123/iam/permission_groups?name=Admin&depth=2"
        mistypedListPayload).FindPermissionGroupByName exampleJson "ctx" "acct123" "Admin"
        freshWorld).1
      = ([], some (.decode (.unmarshalTypeError "number" "string"))) ∧
    ((mockAPI "/accounts/acct123/iam/permission_groups?name=Admin&depth=2"
        "not json").FindPermissionGroupForRole exampleJson "ctx" "acct123"
        (⟨"Admin", 7⟩ : AccountRole Nat) freshWorld).1
      = ([], some (.decode .syntaxError)) := by
  have hd : exampleJson.UnmarshalDetail mistypedDetailPayload
      PermissionGroupDetailResponse.zero
      = (⟨true, [], [], ⟨"pg1", "", none, []⟩⟩,
          some (.decode (.unmarshalTypeError "number" "string"))) := by decide
  have hl : exampleJson.UnmarshalList mistypedListPayload PermissionGroupListResponse.zero
      = (⟨true, [], [], [⟨"pg1", "Admin", none, []⟩, ⟨"pg2", "", none, []⟩]⟩,
          some (.decode (.unmarshalTypeError "number" "string"))) := by decide
  have hs : exampleJson.UnmarshalList "not json" PermissionGroupListResponse.zero
      = (⟨false, [], [], []⟩, some (.decode .syntaxError)) := by decide
  exact ⟨hd,
    (decode_error_returned_unchanged
      (mockAPI "/accounts/acct123/iam/permission_groups/pg1?depth=2" mistypedDetailPayload)
      exampleJson "ctx" "acct123" "pg1" "Admin" (⟨"Admin", 7⟩ : AccountRole Nat) freshWorld
      mistypedDetailPayload _ ⟨false, [], [], []⟩ _).1 (by decide) hd,
    hl,
    (decode_error_returned_unchanged
      (mockAPI "/accounts/acct123/iam/permission_groups?depth=2" mistypedListPayload)
      exampleJson "ctx" "acct123" "pg1" "Admin" (⟨"Admin", 7⟩ : AccountRole Nat) freshWorld
      mistypedListPayload ⟨false, [], [], ⟨"", "", none, []⟩⟩ _ _).2.1 (by decide) hl,
    (decode_error_returned_unchanged
      (mockAPI "/accounts/acct123/iam/permission_groups?name=Admin&depth=2"
        mistypedListPayload)
      exampleJson "ctx" "acct123" "pg1" "Admin" (⟨"Admin", 7⟩ : AccountRole Nat) freshWorld
      mistypedListPayload ⟨false, [], [], ⟨"", "", none, []⟩⟩ _ _).2.2.1 (by decide) hl,
    (decode_error_returned_unchanged
      (mockAPI "/accounts/acct123/iam/permission_groups?name=Admin&depth=2" "not json")
      exampleJson "ctx" "acct123" "pg1" "Admin" (⟨"Admin", 7⟩ : AccountRole Nat) freshWorld
      "not json" ⟨false, [], [], ⟨"", "", none, []⟩⟩ _ _).2.2.2 (by decide) hs⟩

/-- A detail envelope with metadata, two permissions and attributes comes back
field for field. -/
theorem PermissionGroup_returns_result_witness :
    ((mockAPI "/accounts/acct123/iam/permission_groups/pg1?depth=2"
        adminDetailPayload).PermissionGroup exampleJson "ctx" "acct123" "pg1" freshWorld).1
      = (⟨"pg1", "Admin", some [("scope", "account")],
          [⟨"p1", "account.read", some [("legacy", "true")]⟩, ⟨"p2", "dns.edit", none⟩]⟩,
        none) :=
  (PermissionGroup_returns_result
    (mockAPI "/accounts/acct123/iam/permission_groups/pg1?depth=2" adminDetailPayload)
    exampleJson "ctx" "acct123" "pg1" freshWorld adminDetailPayload ⟨true, [], [], adminGroup⟩
    (by decide) (by decide)).1

/-- A list of two groups that is not in alphabetical order comes back as it is,
element for element as the `result` array of the payload holds them. -/
theorem list_returned_in_order_witness :
    ((mockAPI "/accounts/acct123/iam/permission_groups?depth=2"
        twoGroupsPayload).PermissionGroups exampleJson "ctx" "acct123" freshWorld).1
      = ([⟨"pg2", "Zed", none, []⟩, ⟨"pg1", "Admin", none, []⟩], none) ∧
    ((mockAPI "/accounts/acct123/iam/permission_groups?name=Admin&depth=2"
        twoGroupsPayload).FindPermissionGroupByName exampleJson "ctx" "acct123" "Admin"
        freshWorld).1
      = ([⟨"pg2", "Zed", none, []⟩, ⟨"pg1", "Admin", none, []⟩], none) ∧
    ((mockAPI "/accounts/acct123/iam/permission_groups?depth=2"
        twoGroupsPayload).PermissionGroups exampleJson "ctx" "acct123"
        freshWorld).1.1.length = 2 := by
  have hd : exampleJson.UnmarshalList twoGroupsPayload PermissionGroupListResponse.zero
      = (⟨true, [], [], [⟨"pg2", "Zed", none, []⟩, ⟨"pg1", "Admin", none, []⟩]⟩, none) := by
    decide
  have hp : encoding_json.parse twoGroupsPayload
      = some (.object ([("success", .bool true)] ++
          ("result", .array [.object [("id", .string "pg2"), ("name", .string "Zed")],
            .object [("id", .string "pg1"), ("name", .string "Admin")]]) :: [])) := rfl
  have t := list_returned_in_order
    (mockAPI "/accounts/acct123/iam/permission_groups?depth=2" twoGroupsPayload)
    exampleJson "ctx" "acct123" "Admin" freshWorld twoGroupsPayload
    ⟨true, [], [], [⟨"pg2", "Zed", none, []⟩, ⟨"pg1", "Admin", none, []⟩]⟩
  have t2 := list_returned_in_order
    (mockAPI "/accounts/acct123/iam/permission_groups?name=Admin&depth=2" twoGroupsPayload)
    exampleJson "ctx" "acct123" "Admin" freshWorld twoGroupsPayload
    ⟨true, [], [], [⟨"pg2", "Zed", none, []⟩, ⟨"pg1", "Admin", none, []⟩]⟩
  exact ⟨(t.1 (by decide) hd).1, (t2.2.1 (by decide) hd).1,
    ((t.2.2 ExampleError.decode _ _ "result" _ hp (by decide) (by decide) hd).1
      (by decide)).2.1⟩

/-- The list example of the specification, with a transport that answers only the
URI the example names. -/
theorem PermissionGroups_request_witness :
    ((mockAPI "/accounts/acct123/iam/permission_groups?depth=2"
        adminListPayload).PermissionGroups exampleJson "ctx" "acct123" freshWorld).1
      = ([⟨"pg1", "Admin", none, []⟩], none) ∧
    ((mockAPI "/accounts/acct123/iam/permission_groups?depth=2"
        adminListPayload).PermissionGroups exampleJson "ctx" "acct123" freshWorld).2.requests
      = [⟨"ctx", "GET", "/accounts/acct123/iam/permission_groups?depth=2", none⟩] := by
  have t := PermissionGroups_request
    (mockAPI "/accounts/acct123/iam/permission_groups?depth=2" adminListPayload)
    exampleJson "ctx" "acct123" freshWorld ExampleError.decode
  exact ⟨(t.2.2 (by decide)).1, t.2.1⟩

/-- Two roles that share a name and differ in everything else give the same
outcome. -/
theorem FindPermissionGroupForRole_delegates_witness :
    (mockAPI "/accounts/acct123/iam/permission_groups?name=Admin&depth=2"
        adminListPayload).FindPermissionGroupForRole exampleJson "ctx" "acct123"
        (⟨"Admin", 7⟩ : AccountRole Nat) freshWorld
      = (mockAPI "/accounts/acct123/iam/permission_groups?name=Admin&depth=2"
        adminListPayload).FindPermissionGroupForRole exampleJson "ctx" "acct123"
        (⟨"Admin", 8⟩ : AccountRole Nat) freshWorld :=
  (FindPermissionGroupForRole_delegates
    (mockAPI "/accounts/acct123/iam/permission_groups?name=Admin&depth=2" adminListPayload)
    exampleJson "ctx" "acct123" (⟨"Admin", 7⟩ : AccountRole Nat) ⟨"Admin", 8⟩
    freshWorld).2.2.2 rfl

/-- An envelope with Success false and a non-empty Errors list, delivered without
a transport error, yields its Result and a nil error, the same as the envelope
with Success true. -/
theorem envelope_flags_ignored_witness :
    exampleJson.UnmarshalDetail failedDetailPayload PermissionGroupDetailResponse.zero
      = (⟨false, ["boom"], [], adminGroup⟩, none) ∧
    ((mockAPI "/accounts/acct123/iam/permission_groups/pg1?depth=2"
        failedDetailPayload).PermissionGroup exampleJson "ctx" "acct123" "pg1" freshWorld).1
      = (adminGroup, none) ∧
    exampleJson.UnmarshalList failedListPayload PermissionGroupListResponse.zero
      = (⟨false, ["boom"], ["try later"], [⟨"pg1", "Admin", none, []⟩]⟩, none) ∧
    ((mockAPI "/accounts/acct123/iam/permission_groups?depth=2"
        failedListPayload).PermissionGroups exampleJson "ctx" "acct123" freshWorld).1
      = ([⟨"pg1", "Admin", none, []⟩], none) ∧
    ((mockAPI "/accounts/acct123/iam/permission_groups?depth=2"
        adminListPayload).PermissionGroups exampleJson "ctx" "acct123" freshWorld).1
      = ((mockAPI "/accounts/acct123/iam/permission_groups?depth=2"
        failedListPayload).PermissionGroups exampleJson "ctx" "acct123" freshWorld).1 := by
  have hD : exampleJson.UnmarshalDetail failedDetailPayload PermissionGroupDetailResponse.zero
      = (⟨false, ["boom"], [], adminGroup⟩, none) := by decide
  have hD2 : exampleJson.UnmarshalDetail adminDetailPayload PermissionGroupDetailResponse.zero
      = (⟨true, [], [], adminGroup⟩, none) := by decide
  have hL : exampleJson.UnmarshalList failedListPayload PermissionGroupListResponse.zero
      = (⟨false, ["boom"], ["try later"], [⟨"pg1", "Admin", none, []⟩]⟩, none) := by decide
  have hL2 : exampleJson.UnmarshalList adminListPayload PermissionGroupListResponse.zero
      = (⟨true, [], [], [⟨"pg1", "Admin", none, []⟩]⟩, none) := by decide
  have tD := (envelope_flags_ignored
    (mockAPI "/accounts/acct123/iam/permission_groups/pg1?depth=2" failedDetailPayload)
    (mockAPI "/accounts/acct123/iam/permission_groups/pg1?depth=2" adminDetailPayload)
    exampleJson "ctx" "acct123" "pg1" "Admin" (⟨"Admin", 7⟩ : AccountRole Nat)
    freshWorld freshWorld failedDetailPayload adminDetailPayload
    ⟨false, ["boom"], [], adminGroup⟩ ⟨true, [], [], adminGroup⟩
    ⟨false, [], [], []⟩ ⟨false, [], [], []⟩).1 (by decide) (by decide) hD hD2 rfl
  have tL := (envelope_flags_ignored
    (mockAPI "/accounts/acct123/iam/permission_groups?depth=2" failedListPayload)
    (mockAPI "/accounts/acct123/iam/permission_groups?depth=2" adminListPayload)
    exampleJson "ctx" "acct123" "pg1" "Admin" (⟨"Admin", 7⟩ : AccountRole Nat)
    freshWorld freshWorld failedListPayload adminListPayload
    ⟨false, [], [], adminGroup⟩ ⟨false, [], [], adminGroup⟩
    ⟨false, ["boom"], ["try later"], [⟨"pg1", "Admin", none, []⟩]⟩
    ⟨true, [], [], [⟨"pg1", "Admin", none, []⟩]⟩).2.1 (by decide) (by decide) hL hL2 rfl
  exact ⟨hD, tD.1, hL, tL.1, tL.2⟩
end Cloudflare
